import Mathlib

/-!
Verification of the position ledger and matching/closing algorithm of a
Uniswap trader profit calculator.

The embedding mirrors `src/trade_processing.py` and `src/schemas.py`.
Numeric fields (Python floats) are modelled as rationals: the specified
properties are exact-arithmetic statements (weighted averages, clamping,
profit identities), and the approximate-equality claim is explicitly about
exact arithmetic.  Timestamps are opaque counters.  The Python dict
`_bought_tokens` is modelled as an association list that preserves
insertion order (new keys appended at the end, updates in place), which
is the iteration semantics of Python dicts.  The `assert` statement in
`_adjust_bought_token` is modelled by returning `Option`: `none` means
the assertion fired (an `AssertionError` propagating out of the call).
The in-place mutation `token_sold.amount = amount_sold` performed by
`_create_finished_trade` is modelled by returning the updated sold leg
alongside the trade and passing it on to the adjust step, exactly as the
mutated object flows in the source.
-/

abbrev DateTime := Nat

structure Token where
  address : String
  symbol : String
  deriving DecidableEq

structure TradedToken where
  address : String
  symbol : String
  amount : ℚ
  value_usd : ℚ
  price_usd : ℚ
  deriving DecidableEq

def TradedToken.toToken (t : TradedToken) : Token :=
  ⟨t.address, t.symbol⟩

structure TokenSwap where
  time : DateTime
  usd_paid : ℚ
  usd_received : ℚ
  sold_tokens : List TradedToken
  bought_tokens : List TradedToken
  transaction_hash : String
  deriving DecidableEq

structure SingleTokenBuy where
  buy_time : DateTime
  buy_price_usd : ℚ
  bought_token_amount : ℚ
  transaction_hash : String
  value_usd : ℚ
  token_bought : Token
  deriving DecidableEq

structure BoughtToken where
  token_bought : Token
  currently_held_amount : ℚ
  average_buy_price_usd : ℚ
  single_token_buys : List SingleTokenBuy
  deriving DecidableEq

structure FinishedTrade where
  token_bought : Token
  amount : ℚ
  buy_price_usd : ℚ
  sell_price_usd : ℚ
  buy_value_usd : ℚ
  sell_value_usd : ℚ
  profit_usd : ℚ
  sell_time : DateTime
  sell_transaction : String
  deriving DecidableEq

def DIFF_DIVIDER : ℚ := 10

def IGNORED_BUY_TOKEN_SYMBOLS : List String := ["WETH", "USDT", "USDC", "DAI", "RAI"]

/-- The `_bought_tokens` dict: token address → open position, in insertion order. -/
abbrev Ledger := List (String × BoughtToken)

/-- Dict key lookup: first (and, for dict-shaped lists, only) entry with the key. -/
def lookupA : Ledger → String → Option BoughtToken
  | [], _ => none
  | (k, v) :: rest, a => if k = a then some v else lookupA rest a

/-- Dict assignment `d[a] = v`: update in place if the key exists, else append. -/
def insertA : Ledger → String → BoughtToken → Ledger
  | [], a, v => [(a, v)]
  | (k, w) :: rest, a, v => if k = a then (k, v) :: rest else (k, w) :: insertA rest a v

/-- Dict deletion `del d[a]`: remove the entry with the key (first occurrence). -/
def eraseA : Ledger → String → Ledger
  | [], _ => []
  | (k, w) :: rest, a => if k = a then rest else (k, w) :: eraseA rest a

structure TraderProfitCalculator where
  finished_trades : List FinishedTrade
  bought_tokens : Ledger
  deriving DecidableEq

namespace TraderProfitCalculator

/-- `TraderProfitCalculator.__init__`. -/
def init : TraderProfitCalculator := ⟨[], []⟩

/-- `_create_finished_trade`.  Returns the trade together with the sold leg as it
stands after the method (its `amount` field is overwritten with the clamped
value when `amount_sold > amount_owned`). -/
def createFinishedTrade (open_trade : BoughtToken) (token_sold : TradedToken)
    (sell_trade : TokenSwap) : FinishedTrade × TradedToken :=
  let sell_price_usd := token_sold.price_usd
  let amount_owned := open_trade.currently_held_amount
  let amount_sold := if token_sold.amount > amount_owned then amount_owned else token_sold.amount
  let token_sold' := { token_sold with amount := amount_sold }
  let buy_price_usd := open_trade.average_buy_price_usd
  let buy_value_usd := amount_sold * buy_price_usd
  let sell_value_usd := amount_sold * sell_price_usd
  let profit_usd := sell_value_usd - buy_value_usd
  (⟨open_trade.token_bought, amount_sold, buy_price_usd, sell_price_usd,
    buy_value_usd, sell_value_usd, profit_usd, sell_trade.time, sell_trade.transaction_hash⟩,
   token_sold')

/-- `_adjust_bought_token`.  `none` models the `assert` firing. -/
def adjustBoughtToken (ledger : Ledger) (bought_token : BoughtToken)
    (new_token_sold : TradedToken) : Option Ledger :=
  let bought_token_address := bought_token.token_bought.address
  if new_token_sold.amount ≤ bought_token.currently_held_amount then
    let new_token_amount := bought_token.currently_held_amount - new_token_sold.amount
    if new_token_amount > 0 then
      some (insertA ledger bought_token_address
        { bought_token with currently_held_amount := new_token_amount })
    else
      some (eraseA ledger bought_token_address)
  else
    none

/-- The nested loop of `_check_closing_trade`: iterate sold legs in order; the
inner loop over dict items finds the entry whose key equals the leg's address.
The result bundles the finished trade, the (possibly clamped) sold leg, and the
outcome of `_adjust_bought_token`. -/
def closeGo (ledger : Ledger) (sell_trade : TokenSwap) :
    List TradedToken → Option (FinishedTrade × TradedToken × Option Ledger)
  | [] => none
  | leg :: rest =>
    match lookupA ledger leg.address with
    | some bought_token =>
        let ft := createFinishedTrade bought_token leg sell_trade
        some (ft.1, ft.2, adjustBoughtToken ledger bought_token ft.2)
    | none => closeGo ledger sell_trade rest

/-- `_check_closing_trade`. -/
def checkClosingTrade (ledger : Ledger) (new_trade : TokenSwap) :
    Option (FinishedTrade × TradedToken × Option Ledger) :=
  closeGo ledger new_trade new_trade.sold_tokens

/-- `_calculate_new_average_price`. -/
def calculateNewAveragePrice (current_amount current_price new_amount new_price : ℚ) : ℚ :=
  ((current_price * current_amount) + (new_price * new_amount)) /
    (current_amount + new_amount)

/-- `_are_numbers_equal` (the `sum([...]) / 2.0` is kept as a list sum). -/
def areNumbersEqual (num_1 num_2 diff_divider : ℚ) : Bool :=
  let div_num_1 := num_1 / diff_divider
  let div_num_2 := num_2 / diff_divider
  let max_difference := ([div_num_1, div_num_2].sum) / 2
  decide (|div_num_1 - div_num_2| < max_difference)

/-- `_create_single_token_buy`.  `none` models `UnassignedTradedTokenError`. -/
def createSingleTokenBuy (token_swap : TokenSwap) (bought_token : TradedToken)
    (transaction_hash : String) : Option SingleTokenBuy :=
  match token_swap.sold_tokens.find?
      (fun token_paid => areNumbersEqual bought_token.value_usd token_paid.value_usd DIFF_DIVIDER) with
  | some _ =>
      some ⟨token_swap.time, bought_token.value_usd / bought_token.amount,
        bought_token.amount, transaction_hash, bought_token.value_usd,
        bought_token.toToken⟩
  | none => none

/-- `_filter_out_ignored_token_trades`. -/
def filterOutIgnoredTokenTrades (new_open_trades : List SingleTokenBuy) : List SingleTokenBuy :=
  new_open_trades.filter
    (fun trade => decide (trade.token_bought.symbol ∉ IGNORED_BUY_TOKEN_SYMBOLS))

/-- `_convert_token_swap_to_single_token_buy`: the loop that absorbs
`UnassignedTradedTokenError` per bought leg is a `filterMap`. -/
def convertTokenSwapToSingleTokenBuy (token_swap : TokenSwap) : List SingleTokenBuy :=
  filterOutIgnoredTokenTrades
    (token_swap.bought_tokens.filterMap
      (fun bought_token =>
        createSingleTokenBuy token_swap bought_token token_swap.transaction_hash))

/-- `_extend_bought_token` on the looked-up position (the caller guarantees the
key is present). -/
def extendBoughtToken (current_bought_token : BoughtToken)
    (new_single_token_buy : SingleTokenBuy) : BoughtToken :=
  { current_bought_token with
    single_token_buys := current_bought_token.single_token_buys ++ [new_single_token_buy],
    average_buy_price_usd :=
      calculateNewAveragePrice
        current_bought_token.currently_held_amount
        current_bought_token.average_buy_price_usd
        new_single_token_buy.bought_token_amount
        new_single_token_buy.buy_price_usd,
    currently_held_amount :=
      current_bought_token.currently_held_amount + new_single_token_buy.bought_token_amount }

/-- `_create_bought_token`. -/
def createBoughtToken (new_single_token_buy : SingleTokenBuy) : BoughtToken :=
  ⟨new_single_token_buy.token_bought, new_single_token_buy.bought_token_amount,
   new_single_token_buy.buy_price_usd, [new_single_token_buy]⟩

/-- Body of the `for new_single_token_buy in new_single_token_buys` loop of
`receive_token_swap`. -/
def applyBuy (ledger : Ledger) (new_single_token_buy : SingleTokenBuy) : Ledger :=
  let token_bought_address := new_single_token_buy.token_bought.address
  match lookupA ledger token_bought_address with
  | some current => insertA ledger token_bought_address (extendBoughtToken current new_single_token_buy)
  | none => insertA ledger token_bought_address (createBoughtToken new_single_token_buy)

/-- `receive_token_swap`.  `none` models the `AssertionError` of the adjust
step propagating to the caller. -/
def receiveTokenSwap (self : TraderProfitCalculator) (token_swap : TokenSwap) :
    Option TraderProfitCalculator :=
  match checkClosingTrade self.bought_tokens token_swap with
  | some (finished_trade, _, some ledger') =>
      some ⟨self.finished_trades ++ [finished_trade], ledger'⟩
  | some (_, _, none) => none
  | none =>
      some ⟨self.finished_trades,
        (convertTokenSwapToSingleTokenBuy token_swap).foldl applyBuy self.bought_tokens⟩

/-- Deliver a chronological stream of swaps one at a time. -/
def processAll : TraderProfitCalculator → List TokenSwap → Option TraderProfitCalculator
  | self, [] => some self
  | self, swap :: rest =>
    match receiveTokenSwap self swap with
    | some self' => processAll self' rest
    | none => none

end TraderProfitCalculator

/-- Well-formed swap input (spec §3/§6): every leg has a strictly positive
token amount. -/
def WellFormedSwap (s : TokenSwap) : Prop :=
  (∀ l ∈ s.sold_tokens, 0 < l.amount) ∧ (∀ l ∈ s.bought_tokens, 0 < l.amount)

/-- Every entry of a ledger holds a strictly positive amount. -/
def LedgerPositive (l : Ledger) : Prop :=
  ∀ p ∈ l, 0 < p.2.currently_held_amount

/-- Every entry of the calculator's open-positions mapping holds a strictly
positive amount. -/
def PositionsPositive (self : TraderProfitCalculator) : Prop :=
  LedgerPositive self.bought_tokens

/-! ### Ledger lemmas -/

theorem lookupA_nil (a : String) : lookupA [] a = none := rfl

theorem lookupA_cons (k : String) (v : BoughtToken) (l : Ledger) (a : String) :
    lookupA ((k, v) :: l) a = if k = a then some v else lookupA l a := rfl

theorem lookupA_insertA_self (l : Ledger) (a : String) (v : BoughtToken) :
    lookupA (insertA l a v) a = some v := by
  induction l with
  | nil => simp [insertA, lookupA]
  | cons p rest ih =>
    obtain ⟨k, w⟩ := p
    by_cases h : k = a
    · simp [insertA, lookupA, h]
    · simp [insertA, lookupA, h, ih]

theorem lookupA_insertA_ne (l : Ledger) (a : String) (v : BoughtToken)
    (a' : String) (h : a' ≠ a) : lookupA (insertA l a v) a' = lookupA l a' := by
  have hne : ¬a = a' := fun he => h he.symm
  induction l with
  | nil => simp [insertA, lookupA, hne]
  | cons p rest ih =>
    obtain ⟨k, w⟩ := p
    by_cases hk : k = a
    · subst hk
      simp [insertA, lookupA, hne]
    · simp only [insertA, if_neg hk]
      by_cases hk' : k = a'
      · simp [lookupA, hk']
      · simp [lookupA, hk', ih]

theorem lookupA_eq_none_of_not_mem_keys (l : Ledger) (a : String)
    (h : a ∉ l.map Prod.fst) : lookupA l a = none := by
  induction l with
  | nil => rfl
  | cons p rest ih =>
    obtain ⟨k, w⟩ := p
    simp only [List.map_cons, List.mem_cons] at h
    push_neg at h
    have hne : ¬k = a := fun he => h.1 he.symm
    simp [lookupA, hne, ih h.2]

theorem mem_of_lookupA_eq_some (l : Ledger) (a : String) (v : BoughtToken)
    (h : lookupA l a = some v) : (a, v) ∈ l := by
  induction l with
  | nil => simp [lookupA] at h
  | cons p rest ih =>
    obtain ⟨k, w⟩ := p
    by_cases hk : k = a
    · subst hk
      simp [lookupA] at h
      simp [h]
    · simp [lookupA, hk] at h
      exact List.mem_cons_of_mem _ (ih h)

theorem lookupA_eraseA_self (l : Ledger) (a : String)
    (hnd : (l.map Prod.fst).Nodup) : lookupA (eraseA l a) a = none := by
  induction l with
  | nil => rfl
  | cons p rest ih =>
    obtain ⟨k, w⟩ := p
    simp only [List.map_cons, List.nodup_cons] at hnd
    by_cases hk : k = a
    · subst hk
      simp only [eraseA, if_pos rfl]
      exact lookupA_eq_none_of_not_mem_keys rest k hnd.1
    · simp [eraseA, lookupA, hk, ih hnd.2]

theorem lookupA_eraseA_ne (l : Ledger) (a a' : String) (h : a' ≠ a) :
    lookupA (eraseA l a) a' = lookupA l a' := by
  have hne : ¬a = a' := fun he => h he.symm
  induction l with
  | nil => rfl
  | cons p rest ih =>
    obtain ⟨k, w⟩ := p
    by_cases hk : k = a
    · subst hk
      simp [eraseA, lookupA, hne]
    · simp [eraseA, lookupA, hk, ih]

theorem mem_insertA (l : Ledger) (a : String) (v : BoughtToken) (p : String × BoughtToken)
    (h : p ∈ insertA l a v) : p = (a, v) ∨ p ∈ l := by
  induction l with
  | nil =>
    simp only [insertA, List.mem_singleton] at h
    exact Or.inl h
  | cons q rest ih =>
    obtain ⟨k, w⟩ := q
    by_cases hk : k = a
    · subst hk
      simp only [insertA, if_true, eq_self_iff_true, List.mem_cons] at h
      rcases h with h1 | h1
      · exact Or.inl h1
      · exact Or.inr (List.mem_cons_of_mem _ h1)
    · simp only [insertA, if_neg hk, List.mem_cons] at h
      rcases h with h1 | h1
      · exact Or.inr (by simp [h1])
      · rcases ih h1 with h2 | h2
        · exact Or.inl h2
        · exact Or.inr (List.mem_cons_of_mem _ h2)

theorem mem_eraseA (l : Ledger) (a : String) (p : String × BoughtToken)
    (h : p ∈ eraseA l a) : p ∈ l := by
  induction l with
  | nil => simp [eraseA] at h
  | cons q rest ih =>
    obtain ⟨k, w⟩ := q
    by_cases hk : k = a
    · subst hk
      simp only [eraseA, if_true, eq_self_iff_true] at h
      exact List.mem_cons_of_mem _ h
    · simp only [eraseA, if_neg hk, List.mem_cons] at h
      rcases h with h1 | h1
      · simp [h1]
      · exact List.mem_cons_of_mem _ (ih h1)

/-! ### Closing-loop lemmas -/

namespace TraderProfitCalculator

theorem closeGo_nil_ledger (swap : TokenSwap) (legs : List TradedToken) :
    closeGo [] swap legs = none := by
  induction legs with
  | nil => rfl
  | cons leg rest ih => simp [closeGo, lookupA, ih]

theorem closeGo_eq_none (ledger : Ledger) (swap : TokenSwap) (legs : List TradedToken)
    (h : ∀ l ∈ legs, lookupA ledger l.address = none) :
    closeGo ledger swap legs = none := by
  induction legs with
  | nil => rfl
  | cons leg rest ih =>
    have h1 := h leg (List.mem_cons_self _ _)
    simp only [closeGo, h1]
    exact ih fun l hl => h l (List.mem_cons_of_mem _ hl)

theorem closeGo_append_skip (ledger : Ledger) (swap : TokenSwap)
    (legs₁ legs₂ : List TradedToken)
    (h : ∀ l ∈ legs₁, lookupA ledger l.address = none) :
    closeGo ledger swap (legs₁ ++ legs₂) = closeGo ledger swap legs₂ := by
  induction legs₁ with
  | nil => rfl
  | cons leg rest ih =>
    have h1 := h leg (List.mem_cons_self _ _)
    simp only [List.cons_append, closeGo, h1]
    exact ih fun l hl => h l (List.mem_cons_of_mem _ hl)

/-- The sold leg handed to the adjust step is always clamped to at most the
matched position's held amount. -/
theorem createFinishedTrade_snd_amount_le (open_trade : BoughtToken)
    (token_sold : TradedToken) (sell_trade : TokenSwap) :
    (createFinishedTrade open_trade token_sold sell_trade).2.amount ≤
      open_trade.currently_held_amount := by
  simp only [createFinishedTrade]
  by_cases h : token_sold.amount > open_trade.currently_held_amount
  · simp [h]
  · simp [h]
    linarith [not_lt.mp h]

theorem createFinishedTrade_snd_address (open_trade : BoughtToken)
    (token_sold : TradedToken) (sell_trade : TokenSwap) :
    (createFinishedTrade open_trade token_sold sell_trade).2.address =
      token_sold.address := rfl

/-! ### Reduction lemmas for the match-based definitions -/

theorem closeGo_cons_some (ledger : Ledger) (swap : TokenSwap) (leg : TradedToken)
    (rest : List TradedToken) (bt : BoughtToken)
    (h : lookupA ledger leg.address = some bt) :
    closeGo ledger swap (leg :: rest) =
      some ((createFinishedTrade bt leg swap).1, (createFinishedTrade bt leg swap).2,
        adjustBoughtToken ledger bt (createFinishedTrade bt leg swap).2) := by
  simp [closeGo, h]

theorem closeGo_cons_none (ledger : Ledger) (swap : TokenSwap) (leg : TradedToken)
    (rest : List TradedToken) (h : lookupA ledger leg.address = none) :
    closeGo ledger swap (leg :: rest) = closeGo ledger swap rest := by
  simp [closeGo, h]

/-- When the sold amount does not exceed the held amount, no clamping happens
and the sold leg is returned unchanged. -/
theorem createFinishedTrade_of_le (open_trade : BoughtToken) (token_sold : TradedToken)
    (sell_trade : TokenSwap)
    (h : ¬token_sold.amount > open_trade.currently_held_amount) :
    createFinishedTrade open_trade token_sold sell_trade =
      (⟨open_trade.token_bought, token_sold.amount, open_trade.average_buy_price_usd,
        token_sold.price_usd,
        token_sold.amount * open_trade.average_buy_price_usd,
        token_sold.amount * token_sold.price_usd,
        token_sold.amount * token_sold.price_usd -
          token_sold.amount * open_trade.average_buy_price_usd,
        sell_trade.time, sell_trade.transaction_hash⟩, token_sold) := by
  simp [createFinishedTrade, h]

/-- When the sold amount exceeds the held amount, it is clamped and the sold
leg's amount field is overwritten with the held amount. -/
theorem createFinishedTrade_of_gt (open_trade : BoughtToken) (token_sold : TradedToken)
    (sell_trade : TokenSwap)
    (h : token_sold.amount > open_trade.currently_held_amount) :
    createFinishedTrade open_trade token_sold sell_trade =
      (⟨open_trade.token_bought, open_trade.currently_held_amount,
        open_trade.average_buy_price_usd, token_sold.price_usd,
        open_trade.currently_held_amount * open_trade.average_buy_price_usd,
        open_trade.currently_held_amount * token_sold.price_usd,
        open_trade.currently_held_amount * token_sold.price_usd -
          open_trade.currently_held_amount * open_trade.average_buy_price_usd,
        sell_trade.time, sell_trade.transaction_hash⟩,
       { token_sold with amount := open_trade.currently_held_amount }) := by
  simp [createFinishedTrade, h]

theorem adjustBoughtToken_of_pos (ledger : Ledger) (bt : BoughtToken) (sold : TradedToken)
    (h1 : sold.amount ≤ bt.currently_held_amount)
    (h2 : 0 < bt.currently_held_amount - sold.amount) :
    adjustBoughtToken ledger bt sold =
      some (insertA ledger bt.token_bought.address
        { bt with currently_held_amount := bt.currently_held_amount - sold.amount }) := by
  simp [adjustBoughtToken, h1, h2]

theorem adjustBoughtToken_of_zero (ledger : Ledger) (bt : BoughtToken) (sold : TradedToken)
    (h1 : sold.amount ≤ bt.currently_held_amount)
    (h2 : ¬0 < bt.currently_held_amount - sold.amount) :
    adjustBoughtToken ledger bt sold =
      some (eraseA ledger bt.token_bought.address) := by
  simp [adjustBoughtToken, h1, h2]

theorem receiveTokenSwap_of_close_none (self : TraderProfitCalculator) (swap : TokenSwap)
    (h : checkClosingTrade self.bought_tokens swap = none) :
    receiveTokenSwap self swap =
      some ⟨self.finished_trades,
        (convertTokenSwapToSingleTokenBuy swap).foldl applyBuy self.bought_tokens⟩ := by
  simp [receiveTokenSwap, h]

theorem receiveTokenSwap_of_close_some (self : TraderProfitCalculator) (swap : TokenSwap)
    (t : FinishedTrade) (leg : TradedToken) (ledger' : Ledger)
    (h : checkClosingTrade self.bought_tokens swap = some (t, leg, some ledger')) :
    receiveTokenSwap self swap = some ⟨self.finished_trades ++ [t], ledger'⟩ := by
  simp [receiveTokenSwap, h]

theorem applyBuy_of_none (ledger : Ledger) (buy : SingleTokenBuy)
    (h : lookupA ledger buy.token_bought.address = none) :
    applyBuy ledger buy = insertA ledger buy.token_bought.address (createBoughtToken buy) := by
  simp [applyBuy, h]

theorem applyBuy_of_some (ledger : Ledger) (buy : SingleTokenBuy) (current : BoughtToken)
    (h : lookupA ledger buy.token_bought.address = some current) :
    applyBuy ledger buy =
      insertA ledger buy.token_bought.address (extendBoughtToken current buy) := by
  simp [applyBuy, h]

end TraderProfitCalculator

/-! ### Helper for the approximate-equality test -/

namespace TraderProfitCalculator

/-- In exact arithmetic the approximate-equality test is, for any positive
divisor, the test `|x − y| < (x + y)/2`. -/
theorem areNumbersEqual_eq_core (x y e : ℚ) (he : 0 < e) :
    areNumbersEqual x y e = decide (|x - y| < (x + y) / 2) := by
  simp only [areNumbersEqual, List.sum_cons, List.sum_nil, add_zero]
  rw [decide_eq_decide]
  rw [div_add_div_same, div_div]
  rw [show x / e - y / e = (x - y) / e from (sub_div x y e).symm]
  rw [abs_div, abs_of_pos he]
  rw [show (x + y) / (e * 2) = ((x + y) / 2) / e by rw [div_div, mul_comm]]
  exact div_lt_div_iff_of_pos_right he

end TraderProfitCalculator

/-! ### Claims -/

open TraderProfitCalculator

/-- C10: in exact arithmetic, for nonnegative `a`, `b` and positive divisor `d`,
`_are_numbers_equal(a, b, d)` is the divisor-independent test
`|a − b| < (a + b)/2` (so the same as with divisor 1), it is symmetric in `a`
and `b`, and it returns false whenever either value is zero. -/
theorem are_numbers_equal_divider_inert (a b d : ℚ)
    (ha : 0 ≤ a) (hb : 0 ≤ b) (hd : 0 < d) :
    areNumbersEqual a b d = decide (|a - b| < (a + b) / 2) ∧
    areNumbersEqual a b d = areNumbersEqual a b 1 ∧
    areNumbersEqual a b d = areNumbersEqual b a d ∧
    ((a = 0 ∨ b = 0) → areNumbersEqual a b d = false) := by
  refine ⟨areNumbersEqual_eq_core a b d hd, ?_, ?_, ?_⟩
  · rw [areNumbersEqual_eq_core a b d hd, areNumbersEqual_eq_core a b 1 one_pos]
  · rw [areNumbersEqual_eq_core a b d hd, areNumbersEqual_eq_core b a d hd,
      decide_eq_decide, abs_sub_comm, add_comm]
  · rintro (rfl | rfl)
    · rw [areNumbersEqual_eq_core 0 b d hd, decide_eq_false_iff_not, not_lt,
        zero_sub, abs_neg, abs_of_nonneg hb, zero_add]
      linarith
    · rw [areNumbersEqual_eq_core a 0 d hd, decide_eq_false_iff_not, not_lt,
        sub_zero, abs_of_nonneg ha, add_zero]
      linarith

/-- C10 witness: the theorem applied at `a = 3`, `b = 4`, `d = 10`. -/
theorem are_numbers_equal_divider_inert_witness :
    (0 : ℚ) ≤ 3 ∧ (0 : ℚ) ≤ 4 ∧ (0 : ℚ) < 10 ∧
    (areNumbersEqual 3 4 10 = decide (|(3 : ℚ) - 4| < (3 + 4) / 2) ∧
     areNumbersEqual 3 4 10 = areNumbersEqual 3 4 1 ∧
     areNumbersEqual 3 4 10 = areNumbersEqual 4 3 10 ∧
     (((3 : ℚ) = 0 ∨ (4 : ℚ) = 0) → areNumbersEqual 3 4 10 = false)) :=
  ⟨by norm_num, by norm_num, by norm_num,
    are_numbers_equal_divider_inert 3 4 10 (by norm_num) (by norm_num) (by norm_num)⟩

/-- C6 counterexample: the ledger holds a position for token
`(address "0xA", symbol "FOO")`; a sold leg with pair `("0xA", "BAR")` differs
from every open position's (address, symbol) pair, yet a finished trade is
produced — matching uses the address only. -/
theorem closing_pair_identity_counterexample :
    (∀ p ∈ ([("0xA", ⟨⟨"0xA", "FOO"⟩, 1, 1, []⟩)] : Ledger),
        ¬(("0xA" : String) = p.2.token_bought.address ∧
          ("BAR" : String) = p.2.token_bought.symbol)) ∧
    (checkClosingTrade [("0xA", ⟨⟨"0xA", "FOO"⟩, 1, 1, []⟩)]
        ⟨0, 2, 2, [⟨"0xA", "BAR", 1, 2, 2⟩], [], "tx"⟩).isSome = true := by
  constructor
  · decide
  · norm_num [checkClosingTrade, closeGo, lookupA, createFinishedTrade,
      adjustBoughtToken, insertA, eraseA]

/-- C6 (amended): a sold leg closes an open position exactly when its chain
address equals the position's ledger key, regardless of symbol; in particular
a swap none of whose sold legs' addresses appear in the ledger produces no
finished trade. -/
theorem closing_match_is_address_only (ledger : Ledger) (swap : TokenSwap) :
    (checkClosingTrade ledger swap).isSome = true ↔
      ∃ l ∈ swap.sold_tokens, (lookupA ledger l.address).isSome = true := by
  unfold checkClosingTrade
  generalize swap.sold_tokens = legs
  induction legs with
  | nil => simp [closeGo]
  | cons leg rest ih =>
    cases hl : lookupA ledger leg.address with
    | some bt =>
      rw [closeGo_cons_some ledger swap leg rest bt hl]
      constructor
      · intro _
        exact ⟨leg, List.mem_cons_self _ _, by rw [hl]; rfl⟩
      · intro _
        rfl
    | none =>
      rw [closeGo_cons_none ledger swap leg rest hl]
      rw [ih]
      constructor
      · rintro ⟨l, hm, hs⟩
        exact ⟨l, List.mem_cons_of_mem _ hm, hs⟩
      · rintro ⟨l, hm, hs⟩
        rcases List.mem_cons.mp hm with rfl | hm'
        · rw [hl] at hs
          exact absurd hs (by simp)
        · exact ⟨l, hm', hs⟩

/-- C7: whenever the closing engine produces a finished trade, the sold leg it
passes on to the reduce step has amount at most the matched position's held
amount, the reduce step's assertion cannot fire (it always returns a ledger),
and the remaining held amount is nonnegative. -/
theorem contract_violation_unreachable (ledger : Ledger) (swap : TokenSwap)
    (t : FinishedTrade) (leg : TradedToken) (adjusted : Option Ledger)
    (h : checkClosingTrade ledger swap = some (t, leg, adjusted)) :
    ∃ bt ledger', lookupA ledger leg.address = some bt ∧
      leg.amount ≤ bt.currently_held_amount ∧
      adjusted = some ledger' ∧
      0 ≤ bt.currently_held_amount - leg.amount := by
  unfold checkClosingTrade at h
  generalize hlegs : swap.sold_tokens = legs at h
  clear hlegs
  induction legs with
  | nil => simp [closeGo] at h
  | cons leg₀ rest ih =>
    cases hl : lookupA ledger leg₀.address with
    | some bt =>
      rw [closeGo_cons_some ledger swap leg₀ rest bt hl] at h
      simp only [Option.some.injEq, Prod.mk.injEq] at h
      obtain ⟨h1, h2, h3⟩ := h
      subst h2
      subst h3
      have hle := createFinishedTrade_snd_amount_le bt leg₀ swap
      rw [createFinishedTrade_snd_address bt leg₀ swap]
      by_cases hpos :
          0 < bt.currently_held_amount - (createFinishedTrade bt leg₀ swap).2.amount
      · exact ⟨bt, _, hl, hle, adjustBoughtToken_of_pos ledger bt _ hle hpos, by linarith⟩
      · exact ⟨bt, _, hl, hle, adjustBoughtToken_of_zero ledger bt _ hle hpos, by linarith⟩
    | none =>
      rw [closeGo_cons_none ledger swap leg₀ rest hl] at h
      exact ih h

/-- C7 witness: a concrete closing swap (holding 2 units, selling 1). -/
theorem contract_violation_unreachable_witness :
    ∃ bt ledger',
      lookupA [("0xA", ⟨⟨"0xA", "FOO"⟩, 2, 3, []⟩)] "0xA" = some bt ∧
      (1 : ℚ) ≤ bt.currently_held_amount ∧
      (some [("0xA", ⟨⟨"0xA", "FOO"⟩, 1, 3, []⟩)] : Option Ledger) = some ledger' ∧
      (0 : ℚ) ≤ bt.currently_held_amount - 1 :=
  contract_violation_unreachable
    [("0xA", ⟨⟨"0xA", "FOO"⟩, 2, 3, []⟩)]
    ⟨0, 4, 4, [⟨"0xA", "FOO", 1, 4, 4⟩], [], "tx"⟩
    ⟨⟨"0xA", "FOO"⟩, 1, 3, 4, 3, 4, 1, 0, "tx"⟩
    ⟨"0xA", "FOO", 1, 4, 4⟩
    (some [("0xA", ⟨⟨"0xA", "FOO"⟩, 1, 3, []⟩)])
    (by norm_num [checkClosingTrade, closeGo, lookupA, createFinishedTrade,
      adjustBoughtToken, insertA, eraseA])

/-! ### Positivity preservation lemmas -/

namespace TraderProfitCalculator

theorem ledgerPositive_adjust (ledger : Ledger) (bt : BoughtToken) (sold : TradedToken)
    (l' : Ledger) (hpos : LedgerPositive ledger)
    (h : adjustBoughtToken ledger bt sold = some l') : LedgerPositive l' := by
  by_cases h1 : sold.amount ≤ bt.currently_held_amount
  · by_cases h2 : 0 < bt.currently_held_amount - sold.amount
    · rw [adjustBoughtToken_of_pos ledger bt sold h1 h2] at h
      injection h with h
      subst h
      intro p hp
      rcases mem_insertA _ _ _ _ hp with rfl | hmem
      · exact h2
      · exact hpos p hmem
    · rw [adjustBoughtToken_of_zero ledger bt sold h1 h2] at h
      injection h with h
      subst h
      intro p hp
      exact hpos p (mem_eraseA _ _ _ hp)
  · simp [adjustBoughtToken, h1] at h

theorem ledgerPositive_close (ledger : Ledger) (swap : TokenSwap)
    (t : FinishedTrade) (leg : TradedToken) (adj : Option Ledger)
    (hpos : LedgerPositive ledger)
    (h : checkClosingTrade ledger swap = some (t, leg, adj))
    (l' : Ledger) (hadj : adj = some l') : LedgerPositive l' := by
  subst hadj
  unfold checkClosingTrade at h
  generalize hlegs : swap.sold_tokens = legs at h
  clear hlegs
  induction legs with
  | nil => simp [closeGo] at h
  | cons leg₀ rest ih =>
    cases hl₀ : lookupA ledger leg₀.address with
    | some bt₀ =>
      rw [closeGo_cons_some ledger swap leg₀ rest bt₀ hl₀] at h
      simp only [Option.some.injEq, Prod.mk.injEq] at h
      exact ledgerPositive_adjust ledger bt₀ _ l' hpos h.2.2
    | none =>
      rw [closeGo_cons_none ledger swap leg₀ rest hl₀] at h
      exact ih h

theorem ledgerPositive_applyBuy (ledger : Ledger) (buy : SingleTokenBuy)
    (hpos : LedgerPositive ledger) (hamt : 0 < buy.bought_token_amount) :
    LedgerPositive (applyBuy ledger buy) := by
  cases hl : lookupA ledger buy.token_bought.address with
  | some cur =>
    rw [applyBuy_of_some ledger buy cur hl]
    intro p hp
    rcases mem_insertA _ _ _ _ hp with rfl | hmem
    · have hcur := hpos _ (mem_of_lookupA_eq_some _ _ _ hl)
      simp only [extendBoughtToken]
      exact add_pos hcur hamt
    · exact hpos p hmem
  | none =>
    rw [applyBuy_of_none ledger buy hl]
    intro p hp
    rcases mem_insertA _ _ _ _ hp with rfl | hmem
    · simpa [createBoughtToken] using hamt
    · exact hpos p hmem

theorem ledgerPositive_foldl :
    ∀ (buys : List SingleTokenBuy) (ledger : Ledger), LedgerPositive ledger →
      (∀ b ∈ buys, 0 < b.bought_token_amount) →
      LedgerPositive (buys.foldl applyBuy ledger)
  | [], _, hpos, _ => hpos
  | b :: rest, ledger, hpos, hamts => by
    simp only [List.foldl_cons]
    exact ledgerPositive_foldl rest _
      (ledgerPositive_applyBuy ledger b hpos (hamts b (List.mem_cons_self _ _)))
      (fun x hx => hamts x (List.mem_cons_of_mem _ hx))

/-- Every acquisition produced by the leg matcher inherits its amount from a
bought leg of the swap. -/
theorem convert_amount_pos (swap : TokenSwap)
    (hwf : ∀ l ∈ swap.bought_tokens, 0 < l.amount)
    (b : SingleTokenBuy) (hb : b ∈ convertTokenSwapToSingleTokenBuy swap) :
    0 < b.bought_token_amount := by
  unfold convertTokenSwapToSingleTokenBuy filterOutIgnoredTokenTrades at hb
  rw [List.mem_filter] at hb
  obtain ⟨hb, _⟩ := hb
  rw [List.mem_filterMap] at hb
  obtain ⟨src, hsrc, hcreate⟩ := hb
  unfold createSingleTokenBuy at hcreate
  cases hf : swap.sold_tokens.find?
      (fun token_paid => areNumbersEqual src.value_usd token_paid.value_usd DIFF_DIVIDER) with
  | none =>
    rw [hf] at hcreate
    simp at hcreate
  | some s =>
    rw [hf] at hcreate
    injection hcreate with hcreate
    subst hcreate
    exact hwf src hsrc

theorem positionsPositive_receive (self : TraderProfitCalculator) (swap : TokenSwap)
    (self' : TraderProfitCalculator) (hpos : PositionsPositive self)
    (hwf : WellFormedSwap swap)
    (h : receiveTokenSwap self swap = some self') : PositionsPositive self' := by
  unfold receiveTokenSwap at h
  cases hc : checkClosingTrade self.bought_tokens swap with
  | none =>
    rw [hc] at h
    injection h with h
    subst h
    exact ledgerPositive_foldl _ _ hpos (fun b hb => convert_amount_pos swap hwf.2 b hb)
  | some res =>
    obtain ⟨t, leg, adj⟩ := res
    rw [hc] at h
    cases adj with
    | none => simp at h
    | some l' =>
      injection h with h
      subst h
      exact ledgerPositive_close self.bought_tokens swap t leg _ hpos hc l' rfl

theorem positionsPositive_processAll :
    ∀ (swaps : List TokenSwap) (self c : TraderProfitCalculator),
      PositionsPositive self → (∀ s ∈ swaps, WellFormedSwap s) →
      processAll self swaps = some c → PositionsPositive c
  | [], self, c, hpos, _, h => by
    injection h with h
    subst h
    exact hpos
  | swap :: rest, self, c, hpos, hwf, h => by
    unfold processAll at h
    cases hr : receiveTokenSwap self swap with
    | none => rw [hr] at h; simp at h
    | some self' =>
      rw [hr] at h
      exact positionsPositive_processAll rest self' c
        (positionsPositive_receive self swap self' hpos (hwf swap (List.mem_cons_self _ _)) hr)
        (fun s hs => hwf s (List.mem_cons_of_mem _ hs)) h

end TraderProfitCalculator

/-- C9: for every stream of well-formed swaps (all leg amounts positive)
delivered to `receive_token_swap` starting from a fresh calculator, every entry
of the open-positions mapping has a strictly positive held amount after
processing; a position that reaches exactly zero is removed, never kept. -/
theorem positive_held_invariant (swaps : List TokenSwap) (c : TraderProfitCalculator)
    (hwf : ∀ s ∈ swaps, WellFormedSwap s)
    (h : TraderProfitCalculator.processAll TraderProfitCalculator.init swaps = some c) :
    ∀ p ∈ c.bought_tokens, 0 < p.2.currently_held_amount :=
  TraderProfitCalculator.positionsPositive_processAll swaps TraderProfitCalculator.init c
    (fun p hp => absurd hp (List.not_mem_nil p)) hwf h

/-- C9 witness: one well-formed buy swap (1 unit of token X for 100 USDT)
yields a ledger whose entry for X holds a positive amount. -/
theorem positive_held_invariant_witness :
    0 < (("0xX", (⟨⟨"0xX", "X"⟩, 1, 100, [⟨0, 100, 1, "tx", 100, ⟨"0xX", "X"⟩⟩]⟩ :
      BoughtToken)) : String × BoughtToken).2.currently_held_amount :=
  positive_held_invariant
    [⟨0, 100, 100, [⟨"0xU", "USDT", 100, 100, 1⟩], [⟨"0xX", "X", 1, 100, 100⟩], "tx"⟩]
    ⟨[], [("0xX", ⟨⟨"0xX", "X"⟩, 1, 100, [⟨0, 100, 1, "tx", 100, ⟨"0xX", "X"⟩⟩]⟩)]⟩
    (by norm_num [WellFormedSwap])
    (by
      norm_num [TraderProfitCalculator.processAll, TraderProfitCalculator.receiveTokenSwap,
        TraderProfitCalculator.checkClosingTrade, TraderProfitCalculator.closeGo,
        TraderProfitCalculator.convertTokenSwapToSingleTokenBuy,
        TraderProfitCalculator.createSingleTokenBuy,
        TraderProfitCalculator.filterOutIgnoredTokenTrades,
        TraderProfitCalculator.areNumbersEqual, DIFF_DIVIDER, IGNORED_BUY_TOKEN_SYMBOLS,
        TraderProfitCalculator.applyBuy, TraderProfitCalculator.createBoughtToken,
        TraderProfitCalculator.init, lookupA, insertA, List.find?, List.filterMap,
        List.filter, TradedToken.toToken]
      rfl)
    ("0xX", ⟨⟨"0xX", "X"⟩, 1, 100, [⟨0, 100, 1, "tx", 100, ⟨"0xX", "X"⟩⟩]⟩)
    (List.mem_singleton.mpr rfl)

/-- C5: single-close policy — when some sold leg's token matches an open
position, exactly one finished trade is appended, the one derived from the
first matching sold leg (legs before it match no position) against the matched
position; the new ledger comes from the adjust step alone, so the swap's
bought legs (universally quantified here) are ignored and no position is
opened or extended in the same call. -/
theorem single_close_policy (self : TraderProfitCalculator) (swap : TokenSwap)
    (legs₁ : List TradedToken) (leg : TradedToken) (legs₂ : List TradedToken)
    (bt : BoughtToken)
    (hs : swap.sold_tokens = legs₁ ++ leg :: legs₂)
    (h1 : ∀ l ∈ legs₁, lookupA self.bought_tokens l.address = none)
    (h2 : lookupA self.bought_tokens leg.address = some bt) :
    ∃ ledger',
      TraderProfitCalculator.adjustBoughtToken self.bought_tokens bt
        (TraderProfitCalculator.createFinishedTrade bt leg swap).2 = some ledger' ∧
      TraderProfitCalculator.receiveTokenSwap self swap =
        some ⟨self.finished_trades ++
          [(TraderProfitCalculator.createFinishedTrade bt leg swap).1], ledger'⟩ := by
  have hclose : TraderProfitCalculator.checkClosingTrade self.bought_tokens swap =
      some ((TraderProfitCalculator.createFinishedTrade bt leg swap).1,
        (TraderProfitCalculator.createFinishedTrade bt leg swap).2,
        TraderProfitCalculator.adjustBoughtToken self.bought_tokens bt
          (TraderProfitCalculator.createFinishedTrade bt leg swap).2) := by
    unfold TraderProfitCalculator.checkClosingTrade
    rw [hs, TraderProfitCalculator.closeGo_append_skip _ _ _ _ h1,
      TraderProfitCalculator.closeGo_cons_some _ _ _ _ bt h2]
  have hle := TraderProfitCalculator.createFinishedTrade_snd_amount_le bt leg swap
  by_cases hpos : 0 < bt.currently_held_amount -
      (TraderProfitCalculator.createFinishedTrade bt leg swap).2.amount
  · refine ⟨_, TraderProfitCalculator.adjustBoughtToken_of_pos _ bt _ hle hpos, ?_⟩
    exact TraderProfitCalculator.receiveTokenSwap_of_close_some self swap _ _ _
      (by rw [hclose, TraderProfitCalculator.adjustBoughtToken_of_pos _ bt _ hle hpos])
  · refine ⟨_, TraderProfitCalculator.adjustBoughtToken_of_zero _ bt _ hle hpos, ?_⟩
    exact TraderProfitCalculator.receiveTokenSwap_of_close_some self swap _ _ _
      (by rw [hclose, TraderProfitCalculator.adjustBoughtToken_of_zero _ bt _ hle hpos])

/-- C5 witness: ledger holding 2 FOO; swap sells first a non-matching token,
then 1 FOO, and also buys another token (which is ignored by the close path). -/
theorem single_close_policy_witness :
    ∃ ledger',
      TraderProfitCalculator.adjustBoughtToken
        [("0xA", ⟨⟨"0xA", "FOO"⟩, 2, 3, []⟩)] ⟨⟨"0xA", "FOO"⟩, 2, 3, []⟩
        (TraderProfitCalculator.createFinishedTrade ⟨⟨"0xA", "FOO"⟩, 2, 3, []⟩
          ⟨"0xA", "FOO", 1, 4, 4⟩
          ⟨0, 9, 9, [⟨"0xB", "B", 1, 1, 1⟩, ⟨"0xA", "FOO", 1, 4, 4⟩],
            [⟨"0xC", "C", 5, 5, 1⟩], "tx"⟩).2 = some ledger' ∧
      TraderProfitCalculator.receiveTokenSwap
        ⟨[], [("0xA", ⟨⟨"0xA", "FOO"⟩, 2, 3, []⟩)]⟩
        ⟨0, 9, 9, [⟨"0xB", "B", 1, 1, 1⟩, ⟨"0xA", "FOO", 1, 4, 4⟩],
          [⟨"0xC", "C", 5, 5, 1⟩], "tx"⟩ =
        some ⟨[] ++
          [(TraderProfitCalculator.createFinishedTrade ⟨⟨"0xA", "FOO"⟩, 2, 3, []⟩
            ⟨"0xA", "FOO", 1, 4, 4⟩
            ⟨0, 9, 9, [⟨"0xB", "B", 1, 1, 1⟩, ⟨"0xA", "FOO", 1, 4, 4⟩],
              [⟨"0xC", "C", 5, 5, 1⟩], "tx"⟩).1], ledger'⟩ :=
  single_close_policy
    ⟨[], [("0xA", ⟨⟨"0xA", "FOO"⟩, 2, 3, []⟩)]⟩
    ⟨0, 9, 9, [⟨"0xB", "B", 1, 1, 1⟩, ⟨"0xA", "FOO", 1, 4, 4⟩],
      [⟨"0xC", "C", 5, 5, 1⟩], "tx"⟩
    [⟨"0xB", "B", 1, 1, 1⟩] ⟨"0xA", "FOO", 1, 4, 4⟩ []
    ⟨⟨"0xA", "FOO"⟩, 2, 3, []⟩
    rfl
    (by decide)
    rfl

/-- C4: partial close — selling `k < n` units of a position holding `n` leaves
the position with held amount `n − k`, unchanged average buy price (and
unchanged token), and leaves every other ledger entry untouched. -/
theorem partial_close_preserves_cost_basis (self : TraderProfitCalculator)
    (swap : TokenSwap) (legs₁ : List TradedToken) (leg : TradedToken)
    (legs₂ : List TradedToken) (bt : BoughtToken)
    (hs : swap.sold_tokens = legs₁ ++ leg :: legs₂)
    (h1 : ∀ l ∈ legs₁, lookupA self.bought_tokens l.address = none)
    (h2 : lookupA self.bought_tokens leg.address = some bt)
    (hkey : bt.token_bought.address = leg.address)
    (hlt : leg.amount < bt.currently_held_amount) :
    ∃ c', TraderProfitCalculator.receiveTokenSwap self swap = some c' ∧
      (∃ bt', lookupA c'.bought_tokens leg.address = some bt' ∧
        bt'.currently_held_amount = bt.currently_held_amount - leg.amount ∧
        bt'.average_buy_price_usd = bt.average_buy_price_usd ∧
        bt'.token_bought = bt.token_bought) ∧
      ∀ a', a' ≠ leg.address →
        lookupA c'.bought_tokens a' = lookupA self.bought_tokens a' := by
  have hnot : ¬leg.amount > bt.currently_held_amount := not_lt.mpr (le_of_lt hlt)
  have hft := TraderProfitCalculator.createFinishedTrade_of_le bt leg swap hnot
  have hle : (TraderProfitCalculator.createFinishedTrade bt leg swap).2.amount ≤
      bt.currently_held_amount := by
    rw [hft]
    exact le_of_lt hlt
  have hpos : 0 < bt.currently_held_amount -
      (TraderProfitCalculator.createFinishedTrade bt leg swap).2.amount := by
    rw [hft]
    exact sub_pos.mpr hlt
  have hclose : TraderProfitCalculator.checkClosingTrade self.bought_tokens swap =
      some ((TraderProfitCalculator.createFinishedTrade bt leg swap).1,
        (TraderProfitCalculator.createFinishedTrade bt leg swap).2,
        TraderProfitCalculator.adjustBoughtToken self.bought_tokens bt
          (TraderProfitCalculator.createFinishedTrade bt leg swap).2) := by
    unfold TraderProfitCalculator.checkClosingTrade
    rw [hs, TraderProfitCalculator.closeGo_append_skip _ _ _ _ h1,
      TraderProfitCalculator.closeGo_cons_some _ _ _ _ bt h2]
  have hadj := TraderProfitCalculator.adjustBoughtToken_of_pos self.bought_tokens bt _ hle hpos
  refine ⟨⟨self.finished_trades ++ [(TraderProfitCalculator.createFinishedTrade bt leg swap).1],
      insertA self.bought_tokens bt.token_bought.address
        { bt with currently_held_amount := bt.currently_held_amount -
            (TraderProfitCalculator.createFinishedTrade bt leg swap).2.amount }⟩,
    TraderProfitCalculator.receiveTokenSwap_of_close_some self swap _ _ _
      (by rw [hclose, hadj]), ?_, ?_⟩
  · refine ⟨{ bt with currently_held_amount := bt.currently_held_amount -
        (TraderProfitCalculator.createFinishedTrade bt leg swap).2.amount }, ?_, ?_, rfl, rfl⟩
    · rw [← hkey]
      exact lookupA_insertA_self _ _ _
    · rw [hft]
  · intro a' ha'
    rw [← hkey] at ha'
    exact lookupA_insertA_ne _ _ _ _ ha'

/-- C4 witness: a ledger holding 5 FOO at average price 3; a swap sells 2 FOO. -/
theorem partial_close_preserves_cost_basis_witness :
    ∃ c', TraderProfitCalculator.receiveTokenSwap
        ⟨[], [("0xA", ⟨⟨"0xA", "FOO"⟩, 5, 3, []⟩), ("0xB", ⟨⟨"0xB", "BAR"⟩, 7, 2, []⟩)]⟩
        ⟨0, 8, 8, [⟨"0xA", "FOO", 2, 8, 4⟩], [], "tx"⟩ = some c' ∧
      (∃ bt', lookupA c'.bought_tokens "0xA" = some bt' ∧
        bt'.currently_held_amount = (⟨⟨"0xA", "FOO"⟩, 5, 3, []⟩ :
          BoughtToken).currently_held_amount - (2 : ℚ) ∧
        bt'.average_buy_price_usd = (⟨⟨"0xA", "FOO"⟩, 5, 3, []⟩ :
          BoughtToken).average_buy_price_usd ∧
        bt'.token_bought = (⟨⟨"0xA", "FOO"⟩, 5, 3, []⟩ : BoughtToken).token_bought) ∧
      ∀ a', a' ≠ "0xA" →
        lookupA c'.bought_tokens a' =
          lookupA [("0xA", ⟨⟨"0xA", "FOO"⟩, 5, 3, []⟩), ("0xB", ⟨⟨"0xB", "BAR"⟩, 7, 2, []⟩)] a' :=
  partial_close_preserves_cost_basis
    ⟨[], [("0xA", ⟨⟨"0xA", "FOO"⟩, 5, 3, []⟩), ("0xB", ⟨⟨"0xB", "BAR"⟩, 7, 2, []⟩)]⟩
    ⟨0, 8, 8, [⟨"0xA", "FOO", 2, 8, 4⟩], [], "tx"⟩
    [] ⟨"0xA", "FOO", 2, 8, 4⟩ [] ⟨⟨"0xA", "FOO"⟩, 5, 3, []⟩
    rfl
    (by intro l hl; exact absurd hl (List.not_mem_nil l))
    rfl
    rfl
    (by norm_num)

/-- C3: over-sell clamp — selling `k > n` units of a position holding `n`
emits a trade for exactly `n` units with values computed from `n`, overwrites
the sold leg's recorded amount with `n`, and removes the position. -/
theorem oversell_clamp (ledger : Ledger) (swap : TokenSwap)
    (legs₁ : List TradedToken) (leg : TradedToken) (legs₂ : List TradedToken)
    (bt : BoughtToken)
    (hnd : (ledger.map Prod.fst).Nodup)
    (hs : swap.sold_tokens = legs₁ ++ leg :: legs₂)
    (h1 : ∀ l ∈ legs₁, lookupA ledger l.address = none)
    (h2 : lookupA ledger leg.address = some bt)
    (hkey : bt.token_bought.address = leg.address)
    (hgt : leg.amount > bt.currently_held_amount) :
    ∃ t leg' ledger',
      TraderProfitCalculator.checkClosingTrade ledger swap = some (t, leg', some ledger') ∧
      t.amount = bt.currently_held_amount ∧
      t.buy_value_usd = bt.currently_held_amount * bt.average_buy_price_usd ∧
      t.sell_value_usd = bt.currently_held_amount * leg.price_usd ∧
      leg'.amount = bt.currently_held_amount ∧
      lookupA ledger' leg.address = none := by
  have hft := TraderProfitCalculator.createFinishedTrade_of_gt bt leg swap hgt
  have hle := TraderProfitCalculator.createFinishedTrade_snd_amount_le bt leg swap
  have hzero : ¬0 < bt.currently_held_amount -
      (TraderProfitCalculator.createFinishedTrade bt leg swap).2.amount := by
    rw [hft]
    simp
  have hadj := TraderProfitCalculator.adjustBoughtToken_of_zero ledger bt _ hle hzero
  refine ⟨(TraderProfitCalculator.createFinishedTrade bt leg swap).1,
    (TraderProfitCalculator.createFinishedTrade bt leg swap).2,
    eraseA ledger bt.token_bought.address, ?_, ?_, ?_, ?_, ?_, ?_⟩
  · unfold TraderProfitCalculator.checkClosingTrade
    rw [hs, TraderProfitCalculator.closeGo_append_skip _ _ _ _ h1,
      TraderProfitCalculator.closeGo_cons_some _ _ _ _ bt h2, hadj]
  · rw [hft]
  · rw [hft]
  · rw [hft]
  · rw [hft]
  · rw [hkey]
    exact lookupA_eraseA_self ledger leg.address hnd

/-- C3 witness: holding 2 FOO, a swap sells 9 FOO (clamped to 2). -/
theorem oversell_clamp_witness :
    ∃ t leg' ledger',
      TraderProfitCalculator.checkClosingTrade [("0xA", ⟨⟨"0xA", "FOO"⟩, 2, 3, []⟩)]
        ⟨0, 45, 45, [⟨"0xA", "FOO", 9, 45, 5⟩], [], "tx"⟩ = some (t, leg', some ledger') ∧
      t.amount = (2 : ℚ) ∧
      t.buy_value_usd = (2 : ℚ) * 3 ∧
      t.sell_value_usd = (2 : ℚ) * 5 ∧
      leg'.amount = (2 : ℚ) ∧
      lookupA ledger' "0xA" = none :=
  oversell_clamp [("0xA", ⟨⟨"0xA", "FOO"⟩, 2, 3, []⟩)]
    ⟨0, 45, 45, [⟨"0xA", "FOO", 9, 45, 5⟩], [], "tx"⟩
    [] ⟨"0xA", "FOO", 9, 45, 5⟩ [] ⟨⟨"0xA", "FOO"⟩, 2, 3, []⟩
    (by decide)
    rfl
    (by intro l hl; exact absurd hl (List.not_mem_nil l))
    rfl
    rfl
    (by norm_num)

/-- A bought leg whose USD value matches no sold leg within tolerance yields
no acquisition (the internal no-match exception is absorbed into `none`). -/
theorem createSingleTokenBuy_eq_none (swap : TokenSwap) (bad : TradedToken) (hsh : String)
    (hnm : ∀ s ∈ swap.sold_tokens,
      TraderProfitCalculator.areNumbersEqual bad.value_usd s.value_usd DIFF_DIVIDER = false) :
    TraderProfitCalculator.createSingleTokenBuy swap bad hsh = none := by
  have hf : swap.sold_tokens.find?
      (fun token_paid =>
        TraderProfitCalculator.areNumbersEqual bad.value_usd token_paid.value_usd DIFF_DIVIDER) =
      none :=
    List.find?_eq_none.mpr (fun x hx => by simp [hnm x hx])
  unfold TraderProfitCalculator.createSingleTokenBuy
  rw [hf]

/-- C8: a bought leg for which no sold leg's USD value passes the tolerance
test produces no acquisition, and dropping it leaves the acquisitions of all
the other bought legs of the same swap unchanged — one unmatched leg never
aborts processing of the rest of the swap. -/
theorem unmatched_bought_leg_dropped (swap : TokenSwap)
    (legs₁ legs₂ : List TradedToken) (bad : TradedToken)
    (hnm : ∀ s ∈ swap.sold_tokens,
      TraderProfitCalculator.areNumbersEqual bad.value_usd s.value_usd DIFF_DIVIDER = false) :
    TraderProfitCalculator.createSingleTokenBuy
        { swap with bought_tokens := legs₁ ++ bad :: legs₂ } bad swap.transaction_hash = none ∧
    TraderProfitCalculator.convertTokenSwapToSingleTokenBuy
        { swap with bought_tokens := legs₁ ++ bad :: legs₂ } =
      TraderProfitCalculator.convertTokenSwapToSingleTokenBuy
        { swap with bought_tokens := legs₁ ++ legs₂ } := by
  have hfun : ∀ (L : List TradedToken) (x : TradedToken),
      TraderProfitCalculator.createSingleTokenBuy { swap with bought_tokens := L } x
        ({ swap with bought_tokens := L } : TokenSwap).transaction_hash =
      TraderProfitCalculator.createSingleTokenBuy swap x swap.transaction_hash :=
    fun _ _ => rfl
  have hbad : TraderProfitCalculator.createSingleTokenBuy swap bad swap.transaction_hash =
      none := createSingleTokenBuy_eq_none swap bad swap.transaction_hash hnm
  constructor
  · exact (hfun (legs₁ ++ bad :: legs₂) bad).trans hbad
  · unfold TraderProfitCalculator.convertTokenSwapToSingleTokenBuy
    congr 1
    show (legs₁ ++ bad :: legs₂).filterMap _ = (legs₁ ++ legs₂).filterMap _
    rw [List.filterMap_congr (fun x _ => hfun (legs₁ ++ bad :: legs₂) x),
      List.filterMap_congr (fun x _ => hfun (legs₁ ++ legs₂) x)]
    simp [List.filterMap_append, List.filterMap_cons, hbad]

/-- C8 witness: USDT leg pays 100; the bought leg of value 1 matches nothing
and is dropped while the leg of value 100 is still processed. -/
theorem unmatched_bought_leg_dropped_witness :
    TraderProfitCalculator.createSingleTokenBuy
      ⟨0, 100, 100, [⟨"0xU", "USDT", 100, 100, 1⟩], [] ++ ⟨"0xB", "B", 1, 1, 1⟩ ::
        [⟨"0xX", "X", 1, 100, 100⟩], "tx"⟩ ⟨"0xB", "B", 1, 1, 1⟩ "tx" = none ∧
    TraderProfitCalculator.convertTokenSwapToSingleTokenBuy
      ⟨0, 100, 100, [⟨"0xU", "USDT", 100, 100, 1⟩], [] ++ ⟨"0xB", "B", 1, 1, 1⟩ ::
        [⟨"0xX", "X", 1, 100, 100⟩], "tx"⟩ =
    TraderProfitCalculator.convertTokenSwapToSingleTokenBuy
      ⟨0, 100, 100, [⟨"0xU", "USDT", 100, 100, 1⟩], [] ++ [⟨"0xX", "X", 1, 100, 100⟩], "tx"⟩ :=
  unmatched_bought_leg_dropped
    ⟨0, 100, 100, [⟨"0xU", "USDT", 100, 100, 1⟩], [], "tx"⟩
    [] [⟨"0xX", "X", 1, 100, 100⟩] ⟨"0xB", "B", 1, 1, 1⟩
    (by
      intro s hs
      rcases List.mem_singleton.mp hs with rfl
      have habs : |(99 : ℚ) / 10| = 99 / 10 := abs_of_nonneg (by norm_num)
      norm_num [TraderProfitCalculator.areNumbersEqual, DIFF_DIVIDER, habs])

namespace TraderProfitCalculator

/-- A swap with one sold leg and one bought leg, not closing anything, whose
bought value matches the sold leg within tolerance and whose symbol is not
ignored, applies exactly one acquisition to the ledger. -/
theorem receive_single_buy (self : TraderProfitCalculator)
    (addrX symX : String) (amt val pv : ℚ) (s₁ : TradedToken)
    (t₁ : DateTime) (u₁ u₂ : ℚ) (hx₁ : String)
    (hclose : checkClosingTrade self.bought_tokens
      ⟨t₁, u₁, u₂, [s₁], [⟨addrX, symX, amt, val, pv⟩], hx₁⟩ = none)
    (htol : areNumbersEqual val s₁.value_usd DIFF_DIVIDER = true)
    (hsym : symX ∉ IGNORED_BUY_TOKEN_SYMBOLS) :
    receiveTokenSwap self ⟨t₁, u₁, u₂, [s₁], [⟨addrX, symX, amt, val, pv⟩], hx₁⟩ =
      some ⟨self.finished_trades,
        applyBuy self.bought_tokens ⟨t₁, val / amt, amt, hx₁, val, ⟨addrX, symX⟩⟩⟩ := by
  have hconv : convertTokenSwapToSingleTokenBuy
      ⟨t₁, u₁, u₂, [s₁], [⟨addrX, symX, amt, val, pv⟩], hx₁⟩ =
      [⟨t₁, val / amt, amt, hx₁, val, ⟨addrX, symX⟩⟩] := by
    unfold convertTokenSwapToSingleTokenBuy createSingleTokenBuy filterOutIgnoredTokenTrades
    simp [List.find?, htol, TradedToken.toToken, hsym]
  rw [receiveTokenSwap_of_close_none self _ hclose, hconv]
  simp [List.foldl]

end TraderProfitCalculator

/-- C1: round trip — from an empty ledger, a swap buying `n` units of token X
for total value `C` (bought leg matched within tolerance to the sold leg,
symbol not ignored) followed by a swap selling those `n` units for total value
`P` yields exactly one finished trade with `amount = n`, `buy_value_usd = C`,
`sell_value_usd = P`, `profit_usd = P − C`, and no open position for X
remains. -/
theorem open_then_fully_close
    (addrX symX : String) (n C P pX : ℚ) (s₁ : TradedToken)
    (t₁ t₂ : DateTime) (u₁ u₂ u₃ u₄ : ℚ) (hx₁ hx₂ : String)
    (hn : 0 < n)
    (htol : TraderProfitCalculator.areNumbersEqual C s₁.value_usd DIFF_DIVIDER = true)
    (hsym : symX ∉ IGNORED_BUY_TOKEN_SYMBOLS) :
    ∃ c₂,
      TraderProfitCalculator.processAll TraderProfitCalculator.init
        [⟨t₁, u₁, u₂, [s₁], [⟨addrX, symX, n, C, pX⟩], hx₁⟩,
         ⟨t₂, u₃, u₄, [⟨addrX, symX, n, P, P / n⟩], [], hx₂⟩] = some c₂ ∧
      ∃ tr, c₂.finished_trades = [tr] ∧ tr.amount = n ∧ tr.buy_value_usd = C ∧
        tr.sell_value_usd = P ∧ tr.profit_usd = P - C ∧
        lookupA c₂.bought_tokens addrX = none := by
  have hne : n ≠ 0 := ne_of_gt hn
  have hr1 : TraderProfitCalculator.receiveTokenSwap TraderProfitCalculator.init
      ⟨t₁, u₁, u₂, [s₁], [⟨addrX, symX, n, C, pX⟩], hx₁⟩ =
      some ⟨[], [(addrX, ⟨⟨addrX, symX⟩, n, C / n, [⟨t₁, C / n, n, hx₁, C, ⟨addrX, symX⟩⟩]⟩)]⟩ := by
    rw [TraderProfitCalculator.receive_single_buy TraderProfitCalculator.init addrX symX n C pX
      s₁ t₁ u₁ u₂ hx₁ (TraderProfitCalculator.closeGo_nil_ledger _ _) htol hsym]
    simp [TraderProfitCalculator.applyBuy, TraderProfitCalculator.createBoughtToken,
      TraderProfitCalculator.init, lookupA, insertA]
  have hl2 : lookupA [(addrX, (⟨⟨addrX, symX⟩, n, C / n,
      [⟨t₁, C / n, n, hx₁, C, ⟨addrX, symX⟩⟩]⟩ : BoughtToken))] addrX =
      some ⟨⟨addrX, symX⟩, n, C / n, [⟨t₁, C / n, n, hx₁, C, ⟨addrX, symX⟩⟩]⟩ := by
    simp [lookupA]
  have hnogt : ¬(⟨addrX, symX, n, P, P / n⟩ : TradedToken).amount >
      (⟨⟨addrX, symX⟩, n, C / n, [⟨t₁, C / n, n, hx₁, C, ⟨addrX, symX⟩⟩]⟩ :
        BoughtToken).currently_held_amount := by
    simp
  have hft := TraderProfitCalculator.createFinishedTrade_of_le
    ⟨⟨addrX, symX⟩, n, C / n, [⟨t₁, C / n, n, hx₁, C, ⟨addrX, symX⟩⟩]⟩
    ⟨addrX, symX, n, P, P / n⟩ ⟨t₂, u₃, u₄, [⟨addrX, symX, n, P, P / n⟩], [], hx₂⟩ hnogt
  have hle : (TraderProfitCalculator.createFinishedTrade
      ⟨⟨addrX, symX⟩, n, C / n, [⟨t₁, C / n, n, hx₁, C, ⟨addrX, symX⟩⟩]⟩
      ⟨addrX, symX, n, P, P / n⟩
      ⟨t₂, u₃, u₄, [⟨addrX, symX, n, P, P / n⟩], [], hx₂⟩).2.amount ≤
      (⟨⟨addrX, symX⟩, n, C / n, [⟨t₁, C / n, n, hx₁, C, ⟨addrX, symX⟩⟩]⟩ :
        BoughtToken).currently_held_amount := by
    rw [hft]
  have hzero : ¬0 < (⟨⟨addrX, symX⟩, n, C / n, [⟨t₁, C / n, n, hx₁, C, ⟨addrX, symX⟩⟩]⟩ :
      BoughtToken).currently_held_amount -
      (TraderProfitCalculator.createFinishedTrade
        ⟨⟨addrX, symX⟩, n, C / n, [⟨t₁, C / n, n, hx₁, C, ⟨addrX, symX⟩⟩]⟩
        ⟨addrX, symX, n, P, P / n⟩
        ⟨t₂, u₃, u₄, [⟨addrX, symX, n, P, P / n⟩], [], hx₂⟩).2.amount := by
    rw [hft]
    simp
  have hadj := TraderProfitCalculator.adjustBoughtToken_of_zero
    [(addrX, ⟨⟨addrX, symX⟩, n, C / n, [⟨t₁, C / n, n, hx₁, C, ⟨addrX, symX⟩⟩]⟩)]
    ⟨⟨addrX, symX⟩, n, C / n, [⟨t₁, C / n, n, hx₁, C, ⟨addrX, symX⟩⟩]⟩ _ hle hzero
  have her : eraseA [(addrX, (⟨⟨addrX, symX⟩, n, C / n,
      [⟨t₁, C / n, n, hx₁, C, ⟨addrX, symX⟩⟩]⟩ : BoughtToken))]
      (⟨⟨addrX, symX⟩, n, C / n, [⟨t₁, C / n, n, hx₁, C, ⟨addrX, symX⟩⟩]⟩ :
        BoughtToken).token_bought.address = [] := by
    simp [eraseA]
  have hclose2 : TraderProfitCalculator.checkClosingTrade
      [(addrX, ⟨⟨addrX, symX⟩, n, C / n, [⟨t₁, C / n, n, hx₁, C, ⟨addrX, symX⟩⟩]⟩)]
      ⟨t₂, u₃, u₄, [⟨addrX, symX, n, P, P / n⟩], [], hx₂⟩ =
      some ((TraderProfitCalculator.createFinishedTrade
          ⟨⟨addrX, symX⟩, n, C / n, [⟨t₁, C / n, n, hx₁, C, ⟨addrX, symX⟩⟩]⟩
          ⟨addrX, symX, n, P, P / n⟩
          ⟨t₂, u₃, u₄, [⟨addrX, symX, n, P, P / n⟩], [], hx₂⟩).1,
        (TraderProfitCalculator.createFinishedTrade
          ⟨⟨addrX, symX⟩, n, C / n, [⟨t₁, C / n, n, hx₁, C, ⟨addrX, symX⟩⟩]⟩
          ⟨addrX, symX, n, P, P / n⟩
          ⟨t₂, u₃, u₄, [⟨addrX, symX, n, P, P / n⟩], [], hx₂⟩).2, some []) := by
    unfold TraderProfitCalculator.checkClosingTrade
    show TraderProfitCalculator.closeGo _ _ [⟨addrX, symX, n, P, P / n⟩] = _
    rw [TraderProfitCalculator.closeGo_cons_some _ _ _ _ _ hl2, hadj, her]
  have hr2 : TraderProfitCalculator.receiveTokenSwap
      ⟨[], [(addrX, ⟨⟨addrX, symX⟩, n, C / n, [⟨t₁, C / n, n, hx₁, C, ⟨addrX, symX⟩⟩]⟩)]⟩
      ⟨t₂, u₃, u₄, [⟨addrX, symX, n, P, P / n⟩], [], hx₂⟩ =
      some ⟨[] ++ [(TraderProfitCalculator.createFinishedTrade
          ⟨⟨addrX, symX⟩, n, C / n, [⟨t₁, C / n, n, hx₁, C, ⟨addrX, symX⟩⟩]⟩
          ⟨addrX, symX, n, P, P / n⟩
          ⟨t₂, u₃, u₄, [⟨addrX, symX, n, P, P / n⟩], [], hx₂⟩).1], []⟩ :=
    TraderProfitCalculator.receiveTokenSwap_of_close_some _ _ _ _ _ hclose2
  have hp : TraderProfitCalculator.processAll TraderProfitCalculator.init
      [⟨t₁, u₁, u₂, [s₁], [⟨addrX, symX, n, C, pX⟩], hx₁⟩,
       ⟨t₂, u₃, u₄, [⟨addrX, symX, n, P, P / n⟩], [], hx₂⟩] =
      some ⟨[(TraderProfitCalculator.createFinishedTrade
          ⟨⟨addrX, symX⟩, n, C / n, [⟨t₁, C / n, n, hx₁, C, ⟨addrX, symX⟩⟩]⟩
          ⟨addrX, symX, n, P, P / n⟩
          ⟨t₂, u₃, u₄, [⟨addrX, symX, n, P, P / n⟩], [], hx₂⟩).1], []⟩ := by
    simp only [TraderProfitCalculator.processAll, hr1, hr2, List.nil_append]
  refine ⟨_, hp, (TraderProfitCalculator.createFinishedTrade
      ⟨⟨addrX, symX⟩, n, C / n, [⟨t₁, C / n, n, hx₁, C, ⟨addrX, symX⟩⟩]⟩
      ⟨addrX, symX, n, P, P / n⟩
      ⟨t₂, u₃, u₄, [⟨addrX, symX, n, P, P / n⟩], [], hx₂⟩).1, rfl, ?_, ?_, ?_, ?_, rfl⟩
  · rw [hft]
  · rw [hft]
    show n * (C / n) = C
    rw [mul_comm]
    exact div_mul_cancel₀ C hne
  · rw [hft]
    show n * (P / n) = P
    rw [mul_comm]
    exact div_mul_cancel₀ P hne
  · rw [hft]
    show n * (P / n) - n * (C / n) = P - C
    rw [mul_comm n (P / n), mul_comm n (C / n), div_mul_cancel₀ P hne, div_mul_cancel₀ C hne]

/-- C1 witness: buy 1 X for $100 (100 USDT paid leg), sell it for $120. -/
theorem open_then_fully_close_witness :
    ∃ c₂,
      TraderProfitCalculator.processAll TraderProfitCalculator.init
        [⟨0, 100, 100, [⟨"0xU", "USDT", 100, 100, 1⟩], [⟨"0xX", "X", 1, 100, 100⟩], "tx1"⟩,
         ⟨1, 120, 120, [⟨"0xX", "X", 1, 120, (120 : ℚ) / 1⟩], [], "tx2"⟩] = some c₂ ∧
      ∃ tr, c₂.finished_trades = [tr] ∧ tr.amount = (1 : ℚ) ∧
        tr.buy_value_usd = (100 : ℚ) ∧ tr.sell_value_usd = (120 : ℚ) ∧
        tr.profit_usd = (120 : ℚ) - 100 ∧
        lookupA c₂.bought_tokens "0xX" = none :=
  open_then_fully_close "0xX" "X" 1 100 120 100 ⟨"0xU", "USDT", 100, 100, 1⟩
    0 1 100 100 120 120 "tx1" "tx2"
    (by norm_num)
    (by norm_num [TraderProfitCalculator.areNumbersEqual, DIFF_DIVIDER])
    (by decide)

/-- C2: weighted average — from an empty ledger, buying `a` units at per-unit
price `p1` (total value `p1·a`) and then `b` units of the same token at price
`p2` (total value `p2·b`), each bought leg matched within tolerance, symbol
not ignored, and the second swap's sold leg matching no open position, leaves
a single open position with `average_buy_price_usd = (p1·a + p2·b)/(a + b)`
and `currently_held_amount = a + b`, and no finished trade. -/
theorem weighted_average_extension
    (addrX symX : String) (a b p1 p2 : ℚ) (s₁ s₂ : TradedToken)
    (t₁ t₂ : DateTime) (u₁ u₂ u₃ u₄ : ℚ) (hx₁ hx₂ : String)
    (ha : 0 < a) (hb : 0 < b)
    (htol₁ : TraderProfitCalculator.areNumbersEqual (p1 * a) s₁.value_usd DIFF_DIVIDER = true)
    (htol₂ : TraderProfitCalculator.areNumbersEqual (p2 * b) s₂.value_usd DIFF_DIVIDER = true)
    (hsym : symX ∉ IGNORED_BUY_TOKEN_SYMBOLS)
    (hs₂ : s₂.address ≠ addrX) :
    ∃ c₂,
      TraderProfitCalculator.processAll TraderProfitCalculator.init
        [⟨t₁, u₁, u₂, [s₁], [⟨addrX, symX, a, p1 * a, p1⟩], hx₁⟩,
         ⟨t₂, u₃, u₄, [s₂], [⟨addrX, symX, b, p2 * b, p2⟩], hx₂⟩] = some c₂ ∧
      c₂.finished_trades = [] ∧
      ∃ bt, lookupA c₂.bought_tokens addrX = some bt ∧
        bt.average_buy_price_usd = (p1 * a + p2 * b) / (a + b) ∧
        bt.currently_held_amount = a + b := by
  have ha' : a ≠ 0 := ne_of_gt ha
  have hb' : b ≠ 0 := ne_of_gt hb
  have hr1 : TraderProfitCalculator.receiveTokenSwap TraderProfitCalculator.init
      ⟨t₁, u₁, u₂, [s₁], [⟨addrX, symX, a, p1 * a, p1⟩], hx₁⟩ =
      some ⟨[], [(addrX, ⟨⟨addrX, symX⟩, a, (p1 * a) / a,
        [⟨t₁, (p1 * a) / a, a, hx₁, p1 * a, ⟨addrX, symX⟩⟩]⟩)]⟩ := by
    rw [TraderProfitCalculator.receive_single_buy TraderProfitCalculator.init addrX symX a
      (p1 * a) p1 s₁ t₁ u₁ u₂ hx₁ (TraderProfitCalculator.closeGo_nil_ledger _ _) htol₁ hsym]
    simp [TraderProfitCalculator.applyBuy, TraderProfitCalculator.createBoughtToken,
      TraderProfitCalculator.init, lookupA, insertA]
  have hlnone : lookupA [(addrX, (⟨⟨addrX, symX⟩, a, (p1 * a) / a,
      [⟨t₁, (p1 * a) / a, a, hx₁, p1 * a, ⟨addrX, symX⟩⟩]⟩ : BoughtToken))] s₂.address =
      none := by
    simp [lookupA, Ne.symm hs₂]
  have hcl2 : TraderProfitCalculator.checkClosingTrade
      [(addrX, ⟨⟨addrX, symX⟩, a, (p1 * a) / a,
        [⟨t₁, (p1 * a) / a, a, hx₁, p1 * a, ⟨addrX, symX⟩⟩]⟩)]
      ⟨t₂, u₃, u₄, [s₂], [⟨addrX, symX, b, p2 * b, p2⟩], hx₂⟩ = none := by
    unfold TraderProfitCalculator.checkClosingTrade
    show TraderProfitCalculator.closeGo _ _ [s₂] = _
    rw [TraderProfitCalculator.closeGo_cons_none _ _ _ _ hlnone]
    rfl
  have happ : TraderProfitCalculator.applyBuy
      [(addrX, ⟨⟨addrX, symX⟩, a, (p1 * a) / a,
        [⟨t₁, (p1 * a) / a, a, hx₁, p1 * a, ⟨addrX, symX⟩⟩]⟩)]
      ⟨t₂, (p2 * b) / b, b, hx₂, p2 * b, ⟨addrX, symX⟩⟩ =
      [(addrX, ⟨⟨addrX, symX⟩,
        a + b,
        TraderProfitCalculator.calculateNewAveragePrice a ((p1 * a) / a) b ((p2 * b) / b),
        [⟨t₁, (p1 * a) / a, a, hx₁, p1 * a, ⟨addrX, symX⟩⟩,
         ⟨t₂, (p2 * b) / b, b, hx₂, p2 * b, ⟨addrX, symX⟩⟩]⟩)] := by
    rw [TraderProfitCalculator.applyBuy_of_some _ _
      ⟨⟨addrX, symX⟩, a, (p1 * a) / a, [⟨t₁, (p1 * a) / a, a, hx₁, p1 * a, ⟨addrX, symX⟩⟩]⟩
      (by simp [lookupA])]
    simp [insertA, TraderProfitCalculator.extendBoughtToken]
  have hr2 : TraderProfitCalculator.receiveTokenSwap
      ⟨[], [(addrX, ⟨⟨addrX, symX⟩, a, (p1 * a) / a,
        [⟨t₁, (p1 * a) / a, a, hx₁, p1 * a, ⟨addrX, symX⟩⟩]⟩)]⟩
      ⟨t₂, u₃, u₄, [s₂], [⟨addrX, symX, b, p2 * b, p2⟩], hx₂⟩ =
      some ⟨[], [(addrX, ⟨⟨addrX, symX⟩,
        a + b,
        TraderProfitCalculator.calculateNewAveragePrice a ((p1 * a) / a) b ((p2 * b) / b),
        [⟨t₁, (p1 * a) / a, a, hx₁, p1 * a, ⟨addrX, symX⟩⟩,
         ⟨t₂, (p2 * b) / b, b, hx₂, p2 * b, ⟨addrX, symX⟩⟩]⟩)]⟩ := by
    rw [TraderProfitCalculator.receive_single_buy _ addrX symX b (p2 * b) p2 s₂ t₂ u₃ u₄ hx₂
      hcl2 htol₂ hsym]
    simp [happ]
  have hp : TraderProfitCalculator.processAll TraderProfitCalculator.init
      [⟨t₁, u₁, u₂, [s₁], [⟨addrX, symX, a, p1 * a, p1⟩], hx₁⟩,
       ⟨t₂, u₃, u₄, [s₂], [⟨addrX, symX, b, p2 * b, p2⟩], hx₂⟩] =
      some ⟨[], [(addrX, ⟨⟨addrX, symX⟩,
        a + b,
        TraderProfitCalculator.calculateNewAveragePrice a ((p1 * a) / a) b ((p2 * b) / b),
        [⟨t₁, (p1 * a) / a, a, hx₁, p1 * a, ⟨addrX, symX⟩⟩,
         ⟨t₂, (p2 * b) / b, b, hx₂, p2 * b, ⟨addrX, symX⟩⟩]⟩)]⟩ := by
    simp only [TraderProfitCalculator.processAll, hr1, hr2]
  refine ⟨_, hp, rfl, ⟨⟨addrX, symX⟩,
    a + b,
    TraderProfitCalculator.calculateNewAveragePrice a ((p1 * a) / a) b ((p2 * b) / b),
    [⟨t₁, (p1 * a) / a, a, hx₁, p1 * a, ⟨addrX, symX⟩⟩,
     ⟨t₂, (p2 * b) / b, b, hx₂, p2 * b, ⟨addrX, symX⟩⟩]⟩, by simp [lookupA], ?_, rfl⟩
  show TraderProfitCalculator.calculateNewAveragePrice a ((p1 * a) / a) b ((p2 * b) / b) =
    (p1 * a + p2 * b) / (a + b)
  unfold TraderProfitCalculator.calculateNewAveragePrice
  rw [div_mul_cancel₀ (p1 * a) ha', div_mul_cancel₀ (p2 * b) hb']

/-- C2 witness: buy 1 X at price 100 (100 USDT), then 3 X at price 200
(600 USDT); the position averages to (100·1 + 200·3)/4 = 175 over 4 units. -/
theorem weighted_average_extension_witness :
    ∃ c₂,
      TraderProfitCalculator.processAll TraderProfitCalculator.init
        [⟨0, 100, 100, [⟨"0xU", "USDT", 100, 100, 1⟩],
          [⟨"0xX", "X", 1, (100 : ℚ) * 1, 100⟩], "tx1"⟩,
         ⟨1, 600, 600, [⟨"0xU", "USDT", 600, 600, 1⟩],
          [⟨"0xX", "X", 3, (200 : ℚ) * 3, 200⟩], "tx2"⟩] = some c₂ ∧
      c₂.finished_trades = [] ∧
      ∃ bt, lookupA c₂.bought_tokens "0xX" = some bt ∧
        bt.average_buy_price_usd = ((100 : ℚ) * 1 + 200 * 3) / (1 + 3) ∧
        bt.currently_held_amount = (1 : ℚ) + 3 :=
  weighted_average_extension "0xX" "X" 1 3 100 200
    ⟨"0xU", "USDT", 100, 100, 1⟩ ⟨"0xU", "USDT", 600, 600, 1⟩
    0 1 100 100 600 600 "tx1" "tx2"
    (by norm_num) (by norm_num)
    (by norm_num [TraderProfitCalculator.areNumbersEqual, DIFF_DIVIDER])
    (by norm_num [TraderProfitCalculator.areNumbersEqual, DIFF_DIVIDER])
    (by decide)
    (by decide)
